import Mathlib

/-!
Verification development for an ant-colony foraging simulation
(`rng.py`, `simulation.py`, `main.py`).

Shallow embedding conventions:
* Python floats are modelled as exact real numbers (`ℝ`); the raw LCG
  output `state / m` is kept as an exact rational (`ℚ`) and cast to `ℝ`
  where the simulation consumes it.
* Python ints are `ℤ`; Python `//` (floor division) is `Int.fdiv`,
  Python `%` on a positive modulus is `Int.emod`.
* numpy array indexing is modelled on the food grid by `Food.npSet`:
  an index in `[0, n)` is used as is, an index in `[-n, 0)` wraps to
  `i + n`, and anything else is an `IndexError`, modelled as
  `Except.error ()`.  The pheromone-map accessors guard their indices
  before indexing, so they are total there.
* `scipy`'s `dop853` integration of `dP/dt = -k P` in `Map.step` is
  modelled by the exact flow of that ODE, `P(dt) = P(0) * exp (-k*dt)`.
-/

/-! ## rng.py : ManualRNG -/

/-- State of the linear congruential generator of `rng.py`
(`self.m`, `self.a`, `self.c`, `self.state`). -/
structure ManualRNG where
  m : ℤ
  a : ℤ
  c : ℤ
  state : ℤ

/-- Constructor `ManualRNG.__init__` with an explicit seed
(modulus 2147483647, multiplier 16807, increment 0). -/
def ManualRNG.init (seed : ℤ) : ManualRNG :=
  ⟨2147483647, 16807, 0, seed⟩

/-- Method `random`: advance `state = (a*state + c) % m` and return
`state / m` (kept as an exact rational). -/
def ManualRNG.random (r : ManualRNG) : ℚ × ManualRNG :=
  let s := (r.a * r.state + r.c) % r.m
  ((s : ℚ) / (r.m : ℚ), ⟨r.m, r.a, r.c, s⟩)

/-- Python `int(...)` applied to a rational float value: truncation
toward zero. -/
def pyInt (q : ℚ) : ℤ :=
  if 0 ≤ q then ⌊q⌋ else ⌈q⌉

/-- Method `uniform(a, b) = a + (b - a) * random()`. -/
noncomputable def ManualRNG.uniform (r : ManualRNG) (a b : ℝ) : ℝ × ManualRNG :=
  let p := r.random
  (a + (b - a) * (p.1 : ℝ), p.2)

/-- Method `randint(a, b) = a + int(random() * (b - a + 1))`. -/
def ManualRNG.randint (r : ManualRNG) (a b : ℤ) : ℤ × ManualRNG :=
  let p := r.random
  (a + pyInt (p.1 * ((b : ℚ) - (a : ℚ) + 1)), p.2)

/-- Method `normal(mean, std)`: Box-Muller transform
`mean + std * sqrt(-2 ln u1) * cos(2 pi u2)` consuming two draws.
Python's `math.log` raises on argument 0; in this total model that
domain condition is tracked separately by `ManualRNG.normalU1`. -/
noncomputable def ManualRNG.normal (r : ManualRNG) (mean std : ℝ) : ℝ × ManualRNG :=
  let p1 := r.random
  let p2 := p1.2.random
  (mean + std * (Real.sqrt (-2 * Real.log (p1.1 : ℝ)) * Real.cos (2 * Real.pi * (p2.1 : ℝ))),
    p2.2)

/-- The value `u1` that `normal` feeds to `math.log` (its first draw).
`math.log` raises `ValueError` exactly when this value is 0. -/
def ManualRNG.normalU1 (r : ManualRNG) : ℚ :=
  (r.random).1

/-- The generator after `n` consecutive `random()` draws. -/
def ManualRNG.drawN (r : ManualRNG) : ℕ → ManualRNG
  | 0 => r
  | n + 1 => ((r.drawN n).random).2

/-! ## simulation.py : Map (pheromone scalar field) -/

/-- Pheromone map: grid dimensions, normalization ceiling `max_val`,
per-time-unit retention `evaporation_rate`, and the cell array
`map_vals` (indexed row first: `map_vals gy gx` is `map_vals[gy, gx]`). -/
structure Map where
  width : ℤ
  height : ℤ
  max_val : ℝ
  evaporation_rate : ℝ
  map_vals : ℤ → ℤ → ℝ

/-- Constructor `Map.__init__`: zero-filled grid. -/
noncomputable def Map.init (grid_width grid_height : ℤ) (max_val evaporation_rate : ℝ) : Map :=
  ⟨grid_width, grid_height, max_val, evaporation_rate, fun _ _ => 0⟩

/-- Method `step(dt)`: decay of every cell by the ODE
`dP/dt = -k P`, `k = -ln(evaporation_rate)`, integrated from 0 to `dt`
(`dop853` in the source, modelled by the exact flow
`P(dt) = P(0) * exp(-k*dt)`). -/
noncomputable def Map.step (m : Map) (dt : ℝ) : Map :=
  let k := -Real.log m.evaporation_rate
  { m with map_vals := fun gy gx => m.map_vals gy gx * Real.exp (-k * dt) }

open Classical in
/-- Method `set_value(x, y, val)`: map to cell `(x // 4, y // 4)`; if in
bounds and `val` exceeds the current value, overwrite, else no-op. -/
noncomputable def Map.set_value (m : Map) (x y : ℤ) (val : ℝ) : Map :=
  let gx := Int.fdiv x 4
  let gy := Int.fdiv y 4
  if 0 ≤ gx ∧ gx < m.width ∧ 0 ≤ gy ∧ gy < m.height then
    if m.map_vals gy gx < val then
      { m with map_vals := fun gy2 gx2 => if gy2 = gy ∧ gx2 = gx then val else m.map_vals gy2 gx2 }
    else m
  else m

/-- Method `get_value(x, y)`: the mapped cell's value, or sentinel `-1`
out of bounds. -/
noncomputable def Map.get_value (m : Map) (x y : ℤ) : ℝ :=
  let gx := Int.fdiv x 4
  let gy := Int.fdiv y 4
  if 0 ≤ gx ∧ gx < m.width ∧ 0 ≤ gy ∧ gy < m.height then
    m.map_vals gy gx
  else -1

/-- Method `get_weighted_direction(x, y)`: weighted average of the 8
neighbor offsets of the mapped cell, weights being the in-bounds
neighbor values; `(0, 0)` when the total weight is not positive. -/
noncomputable def Map.get_weighted_direction (m : Map) (x y : ℤ) : ℝ × ℝ :=
  let gx := Int.fdiv x 4
  let gy := Int.fdiv y 4
  let dirs : List (ℤ × ℤ) := [(-1,-1), (0,-1), (1,-1), (-1,0), (1,0), (-1,1), (0,1), (1,1)]
  let acc := dirs.foldl
    (fun (s : ℝ × ℝ × ℝ) d =>
      let nx := gx + d.1
      let ny := gy + d.2
      if 0 ≤ nx ∧ nx < m.width ∧ 0 ≤ ny ∧ ny < m.height then
        (s.1 + (d.1 : ℝ) * m.map_vals ny nx, s.2.1 + (d.2 : ℝ) * m.map_vals ny nx,
          s.2.2 + m.map_vals ny nx)
      else s)
    (0, 0, 0)
  if acc.2.2 > 0 then (acc.1 / acc.2.2, acc.2.1 / acc.2.2) else (0, 0)

/-! ## simulation.py : Food (boolean presence field) -/

/-- Food field: boolean grid, `map_vals gy gx` is `map_vals[gy, gx]`. -/
structure Food where
  width : ℤ
  height : ℤ
  map_vals : ℤ → ℤ → Bool

/-- Constructor `Food.__init__`: all-false grid. -/
def Food.init (grid_width grid_height : ℤ) : Food :=
  ⟨grid_width, grid_height, fun _ _ => false⟩

/-- numpy index resolution for an axis of length `n`: indices in
`[0, n)` are used directly, indices in `[-n, 0)` wrap to `i + n`, and
anything else is an `IndexError`. -/
def npWrap (n i : ℤ) : Option ℤ :=
  if 0 ≤ i ∧ i < n then some i
  else if -n ≤ i ∧ i < 0 then some (i + n) else none

/-- A single unguarded numpy write `map_vals[i, j] = b` with numpy's
negative-index wrapping and `IndexError` behavior. -/
def Food.npSet (f : Food) (i j : ℤ) (b : Bool) : Except Unit Food :=
  match npWrap f.height i, npWrap f.width j with
  | some i2, some j2 =>
      Except.ok
        { f with map_vals := fun gy gx => if gy = i2 ∧ gx = j2 then b else f.map_vals gy gx }
  | _, _ => Except.error ()

/-- Python `range(a, b)` as a list of integers. -/
def intRange (a b : ℤ) : List ℤ :=
  (List.range (b - a).toNat).map fun k : ℕ => a + (k : ℤ)

/-- Method `add_food(x, y)`: mark a 5x5 block starting at the mapped
cell, the loop ranges clipped only on the upper side
(`range(g, min(g+5, n))`); each write is an unguarded numpy index. -/
def Food.add_food (f : Food) (x y : ℤ) : Except Unit Food :=
  let gx := Int.fdiv x 4
  let gy := Int.fdiv y 4
  (intRange gy (min (gy + 5) f.height)).foldlM
    (fun fa i =>
      (intRange gx (min (gx + 5) fa.width)).foldlM (fun fb j => fb.npSet i j true) fa)
    f

/-- Method `bite(x, y)`: clear the mapped cell if in bounds, else
no-op. -/
def Food.bite (f : Food) (x y : ℤ) : Food :=
  let gx := Int.fdiv x 4
  let gy := Int.fdiv y 4
  if 0 ≤ gx ∧ gx < f.width ∧ 0 ≤ gy ∧ gy < f.height then
    { f with map_vals := fun gy2 gx2 => if gy2 = gy ∧ gx2 = gx then false else f.map_vals gy2 gx2 }
  else f

/-- Method `get_value(x, y)`: presence at the mapped cell, `false` out
of bounds. -/
def Food.get_value (f : Food) (x y : ℤ) : Bool :=
  let gx := Int.fdiv x 4
  let gy := Int.fdiv y 4
  if 0 ≤ gx ∧ gx < f.width ∧ 0 ≤ gy ∧ gy < f.height then
    f.map_vals gy gx
  else false

/-! ## simulation.py : Ant -/

/-- Agent state (class `Ant`): velocity `(dx, dy)`, world position
`(x, y)`, integer position `(int_x, int_y)`, previous integer position
`(last_x, last_y)`, `has_food` flag, deposit strengths `home_pher`,
`food_pher`, the constants `use_rate` (0.995) and `wander_chance`
(0.92), and the `bored` idle counter.  The shared pheromone maps
(`self.home_map`, `self.food_map`) are passed to the methods
explicitly. -/
structure Ant where
  dx : ℝ
  dy : ℝ
  x : ℝ
  y : ℝ
  int_x : ℤ
  int_y : ℤ
  last_x : ℤ
  last_y : ℤ
  has_food : Bool
  home_pher : ℝ
  food_pher : ℝ
  use_rate : ℝ
  wander_chance : ℚ
  bored : ℤ

/-- Constructor `Ant.__init__(x, y, ...)`: velocity from two
`rng.normal(0, 1)` draws, both position copies at `(x, y)`. -/
noncomputable def Ant.init (x y : ℤ) (rng : ManualRNG) : Ant × ManualRNG :=
  let p1 := rng.normal 0 1
  let p2 := p1.2.normal 0 1
  (⟨p1.1, p2.1, (x : ℝ), (y : ℝ), x, y, x, y, false, 100, 100, 995/1000, 92/100, 0⟩, p2.2)

/-- Python `int(...)` applied to a float value: truncation toward
zero. -/
noncomputable def pyIntR (r : ℝ) : ℤ :=
  if 0 ≤ r then ⌊r⌋ else ⌈r⌉

open Classical in
/-- Lines 127-157 of `Ant.step`: stochastic velocity perturbation,
optional idle burst, directed steering when not bored, boundary
repulsion, and the clamp of both components to `[-1, 1]`. -/
noncomputable def Ant.stepVel (a : Ant) (home_map food_map : Map) (rng : ManualRNG) (dt : ℝ) :
    Ant × ManualRNG :=
  let q1 := rng.random
  let s1 : ℝ × ManualRNG :=
    if q1.1 > a.wander_chance then
      let z := q1.2.normal 0 1
      (a.dx + z.1 * dt, z.2)
    else (a.dx, q1.2)
  let q2 := s1.2.random
  let s2 : ℝ × ManualRNG :=
    if q2.1 > a.wander_chance then
      let z := q2.2.normal 0 1
      (a.dy + z.1 * dt, z.2)
    else (a.dy, q2.2)
  let q3 := s2.2.random
  let s3 : ℤ × ManualRNG :=
    if q3.1 > 99/100 then
      let z := q3.2.randint 0 15
      (a.bored + z.1, z.2)
    else (a.bored, q3.2)
  let s4 : ℝ × ℝ × ℤ × ManualRNG :=
    if s3.1 > 0 then (s1.1, s2.1, s3.1 - 1, s3.2)
    else
      let dir :=
        if a.has_food then home_map.get_weighted_direction a.int_x a.int_y
        else food_map.get_weighted_direction a.int_x a.int_y
      let u1 := s3.2.uniform 0 (3/2)
      let u2 := u1.2.uniform 0 (3/2)
      (s1.1 + dir.1 * u1.1 * dt, s2.1 + dir.2 * u2.1 * dt, s3.1, u2.2)
  let dxb := if a.x < 2 then (1 : ℝ) else s4.1
  let dxb2 := if a.x > 600 - 2 then (-1 : ℝ) else dxb
  let dyb := if a.y < 2 then (1 : ℝ) else s4.2.1
  let dyb2 := if a.y > 400 - 2 then (-1 : ℝ) else dyb
  ({ a with dx := max (min dxb2 1) (-1), dy := max (min dyb2 1) (-1), bored := s4.2.2.1 },
    s4.2.2.2)

/-- Lines 159-163 of `Ant.step`: explicit Euler position update and
refresh of the integer position. -/
noncomputable def Ant.stepMove (a : Ant) (dt : ℝ) : Ant :=
  let x2 := a.x + a.dx * dt
  let y2 := a.y + a.dy * dt
  { a with x := x2, y := y2, int_x := pyIntR x2, int_y := pyIntR y2 }

/-- Lines 165-174 of `Ant.step`: when the integer position changed
since the last tick, first decay the active scent strength by
`use_rate`, then deposit the decayed value into the field matching the
carrying state; finally refresh `(last_x, last_y)`. -/
noncomputable def Ant.stepDeposit (a : Ant) (home_map food_map : Map) : Ant × Map × Map :=
  if a.last_x ≠ a.int_x ∨ a.last_y ≠ a.int_y then
    if a.has_food then
      let p := a.food_pher * a.use_rate
      ({ a with food_pher := p, last_x := a.int_x, last_y := a.int_y },
        home_map, food_map.set_value a.int_x a.int_y p)
    else
      let p := a.home_pher * a.use_rate
      ({ a with home_pher := p, last_x := a.int_x, last_y := a.int_y },
        home_map.set_value a.int_x a.int_y p, food_map)
  else ({ a with last_x := a.int_x, last_y := a.int_y }, home_map, food_map)

/-- Method `Ant.step(dt)`: velocity update, movement, deposition.
Returns the updated ant, the two (possibly written) maps, and the
advanced random source. -/
noncomputable def Ant.step (a : Ant) (home_map food_map : Map) (rng : ManualRNG) (dt : ℝ) :
    Ant × Map × Map × ManualRNG :=
  let v := a.stepVel home_map food_map rng dt
  let mv := v.1.stepMove dt
  let d := mv.stepDeposit home_map food_map
  (d.1, d.2.1, d.2.2, v.2)

/-! ## simulation.py : Colony -/

/-- Colony state: agent list, nest position `(x, y)`, delivered-food
counter. -/
structure Colony where
  ants : List Ant
  x : ℤ
  y : ℤ
  food_delivered : ℕ

/-- The list comprehension of `Colony.__init__`, threading the shared
random source through the `Ant` constructors in order. -/
noncomputable def Colony.mkAnts (x y : ℤ) : ℕ → ManualRNG → List Ant × ManualRNG
  | 0, rng => ([], rng)
  | n + 1, rng =>
      let p := Ant.init x y rng
      let rest := Colony.mkAnts x y n p.2
      (p.1 :: rest.1, rest.2)

/-- Constructor `Colony.__init__(x, y, count, ...)`. -/
noncomputable def Colony.init (x y : ℤ) (count : ℕ) (rng : ManualRNG) : Colony × ManualRNG :=
  let p := Colony.mkAnts x y count rng
  (⟨p.1, x, y, 0⟩, p.2)

/-- Mutable state threaded through the per-ant loop of
`Colony.update`: processed ants, both pheromone maps, the food field,
the random source, and the delivery counter. -/
structure UpdState where
  done : List Ant
  homeM : Map
  foodM : Map
  food : Food
  rng : ManualRNG
  delivered : ℕ

/-- One iteration of the loop of `Colony.update`: step the ant; a
carrying ant inside the 20x20 nest box delivers (flag cleared,
`home_pher` reset to 100, counter incremented); otherwise a
non-carrying ant on a food cell picks up (flag set, `food_pher` reset
to 100, cell bitten). -/
noncomputable def Colony.updateAnt (nest_x nest_y : ℤ) (dt : ℝ) (st : UpdState) (a : Ant) :
    UpdState :=
  let r := a.step st.homeM st.foodM st.rng dt
  let a1 := r.1
  if a1.has_food then
    if |a1.int_x - nest_x| < 20 ∧ |a1.int_y - nest_y| < 20 then
      ⟨st.done ++ [{ a1 with has_food := false, home_pher := 100 }], r.2.1, r.2.2.1,
        st.food, r.2.2.2, st.delivered + 1⟩
    else ⟨st.done ++ [a1], r.2.1, r.2.2.1, st.food, r.2.2.2, st.delivered⟩
  else
    if st.food.get_value a1.int_x a1.int_y then
      ⟨st.done ++ [{ a1 with has_food := true, food_pher := 100 }], r.2.1, r.2.2.1,
        st.food.bite a1.int_x a1.int_y, r.2.2.2, st.delivered⟩
    else ⟨st.done ++ [a1], r.2.1, r.2.2.1, st.food, r.2.2.2, st.delivered⟩

/-- Method `Colony.update(food, dt)`. -/
noncomputable def Colony.update (c : Colony) (food : Food) (homeM foodM : Map)
    (rng : ManualRNG) (dt : ℝ) : Colony × Food × Map × Map × ManualRNG :=
  let st := c.ants.foldl (Colony.updateAnt c.x c.y dt)
    ⟨[], homeM, foodM, food, rng, c.food_delivered⟩
  ({ c with ants := st.done, food_delivered := st.delivered }, st.food, st.homeM, st.foodM,
    st.rng)

/-- Placeholder agent used only to type out-of-range list reads; every
index generated by the collision pass is in range. -/
noncomputable def antDefault : Ant :=
  ⟨0, 0, 0, 0, 0, 0, 0, 0, false, 0, 0, 0, 0, 0⟩

open Classical in
/-- The body of the pairwise loop of `Colony.resolve_collisions` for
one index pair `(i, j)`: circles of radius 4 (collision distance 8),
random contact normal with effective distance 0.1 on exact overlap,
symmetric positional correction by half the penetration, and an
impulse with restitution 0.5 when the pair is closing. -/
noncomputable def Colony.collidePair (st : List Ant × ManualRNG) (ij : ℕ × ℕ) :
    List Ant × ManualRNG :=
  let ant1 := st.1.getD ij.1 antDefault
  let ant2 := st.1.getD ij.2 antDefault
  let dx := ant1.x - ant2.x
  let dy := ant1.y - ant2.y
  let dist := Real.sqrt (dx ^ 2 + dy ^ 2)
  if dist < 8 then
    let nrm : (ℝ × ℝ) × ℝ × ManualRNG :=
      if dist = 0 then
        let u := st.2.uniform 0 (2 * Real.pi)
        ((Real.cos u.1, Real.sin u.1), 1/10, u.2)
      else ((dx / dist, dy / dist), dist, st.2)
    let correction := (1/2 : ℝ) * (8 - nrm.2.1)
    let b1 := { ant1 with x := ant1.x + correction * nrm.1.1, y := ant1.y + correction * nrm.1.2 }
    let b2 := { ant2 with x := ant2.x - correction * nrm.1.1, y := ant2.y - correction * nrm.1.2 }
    let rel_dot := (b1.dx - b2.dx) * nrm.1.1 + (b1.dy - b2.dy) * nrm.1.2
    let c1 : Ant × Ant :=
      if rel_dot < 0 then
        let impulse := -(1 + 1/2) * rel_dot / 2
        ({ b1 with dx := b1.dx + impulse * nrm.1.1, dy := b1.dy + impulse * nrm.1.2 },
          { b2 with dx := b2.dx - impulse * nrm.1.1, dy := b2.dy - impulse * nrm.1.2 })
      else (b1, b2)
    ((st.1.set ij.1 c1.1).set ij.2 c1.2, nrm.2.2)
  else st

/-- The index pairs `(i, j)`, `i < j < n`, in the iteration order of
the nested loops of `resolve_collisions`. -/
def pairIndices (n : ℕ) : List (ℕ × ℕ) :=
  ((List.range n).map fun i => (List.range' (i + 1) (n - (i + 1))).map fun j => (i, j)).flatten

/-- Method `Colony.resolve_collisions()`. -/
noncomputable def Colony.resolve_collisions (c : Colony) (rng : ManualRNG) :
    Colony × ManualRNG :=
  let st := (pairIndices c.ants.length).foldl Colony.collidePair (c.ants, rng)
  ({ c with ants := st.1 }, st.2)

/-! ## main.py : simulation driver -/

/-- The driver state: both pheromone maps, the food field, the colony,
and the shared random source. -/
structure SimState where
  homeM : Map
  foodM : Map
  food : Food
  colony : Colony
  rng : ManualRNG

/-- The two driver-to-core calls: `advanceTick(dt)` (one frame of
`main.py`: colony update, collision resolution, decay of both maps)
and `placeFood(x, y)` (mouse-triggered `food.add_food`). -/
inductive SimCmd where
  | advanceTick (dt : ℝ)
  | placeFood (x y : ℤ)

/-- Initial state of `main()` for a given seed and agent count:
150x100 grids, colony at the center `(300, 200)` of the 600x400
world.  Initial food placements are issued as `placeFood` commands. -/
noncomputable def initSim (seed : ℤ) (count : ℕ) : SimState :=
  let homeM := Map.init 150 100 100 (999/1000)
  let foodM := Map.init 150 100 100 (999/1000)
  let p := Colony.init 300 200 count (ManualRNG.init seed)
  ⟨homeM, foodM, Food.init 150 100, p.1, p.2⟩

/-- One driver call applied to the simulation state; a numpy
`IndexError` from `add_food` aborts the run. -/
noncomputable def applyCmd (s : SimState) : SimCmd → Except Unit SimState
  | SimCmd.advanceTick dt =>
      let u := s.colony.update s.food s.homeM s.foodM s.rng dt
      let rc := u.1.resolve_collisions u.2.2.2.2
      Except.ok ⟨u.2.2.1.step dt, u.2.2.2.1.step dt, u.2.1, rc.1, rc.2⟩
  | SimCmd.placeFood x y =>
      match s.food.add_food x y with
      | Except.ok f2 => Except.ok { s with food := f2 }
      | Except.error e => Except.error e

/-- A full run: the initial state followed by a fixed sequence of
driver calls. -/
noncomputable def runSim (seed : ℤ) (count : ℕ) (cmds : List SimCmd) : Except Unit SimState :=
  cmds.foldlM applyCmd (initSim seed count)

/-! ## Concrete fixtures used by the counterexamples and witnesses -/

/-- Two ants in collision range (distance 5 < 8) whose clamped
velocities close head-on diagonally. -/
noncomputable def antColA : Ant :=
  ⟨1, 1, 103, 96, 103, 96, 103, 96, false, 100, 100, 995/1000, 92/100, 0⟩

/-- Partner of `antColA` in the counterexample for C4. -/
noncomputable def antColB : Ant :=
  ⟨1, -1, 100, 100, 100, 100, 100, 100, false, 100, 100, 995/1000, 92/100, 0⟩

/-- An agent at (100, 100) with zero velocity, used twice to build the
exact-overlap pair. -/
noncomputable def antOverlap : Ant :=
  ⟨0, 0, 100, 100, 100, 100, 100, 100, false, 100, 100, 995/1000, 92/100, 0⟩

/-- The empty 150x100 pheromone map with the default parameters. -/
noncomputable def mapM150 : Map := Map.init 150 100 100 (999/1000)

/-- A non-carrying ant at world position (1, 9), inside grid cell
(0, 2), with one idle tick pending. -/
noncomputable def antC3 : Ant :=
  ⟨1/2, 0, 1, 9, 1, 9, 1, 9, false, 100, 100, 995/1000, 92/100, 1⟩

/-! ## Claim C9 : RandomSource contract -/

/-- Helper: a draw preserves the LCG constants, hence so does any
number of draws. -/
theorem ManualRNG.drawN_const (r : ManualRNG) (n : ℕ) :
    (r.drawN n).m = r.m ∧ (r.drawN n).a = r.a ∧ (r.drawN n).c = r.c := by
  induction n with
  | zero => exact ⟨rfl, rfl, rfl⟩
  | succ n ih => simpa [ManualRNG.drawN, ManualRNG.random] using ih

/-- C9: every draw advances the state by
`state = (multiplier*state + increment) mod modulus` and outputs
`state/modulus`; `random()` lies in `[0,1)`; `uniform(a,b)` lies in
`[a,b)` for `a < b`; `randint(a,b)` lies in `[a,b]` for `a ≤ b`. -/
theorem rng_contract (r : ManualRNG) (hm : r.m = 2147483647) (ha : r.a = 16807)
    (hc : r.c = 0) :
    ((r.random).2.state = (r.a * r.state + r.c) % r.m ∧
      (r.random).1 = (((r.a * r.state + r.c) % r.m : ℤ) : ℚ) / (r.m : ℚ)) ∧
    (0 ≤ (r.random).1 ∧ (r.random).1 < 1) ∧
    (∀ a b : ℝ, a < b → a ≤ (r.uniform a b).1 ∧ (r.uniform a b).1 < b) ∧
    (∀ a b : ℤ, a ≤ b → a ≤ (r.randint a b).1 ∧ (r.randint a b).1 ≤ b) := by
  have hm0 : (0 : ℤ) < r.m := by rw [hm]; norm_num
  have hs0 : 0 ≤ (r.a * r.state + r.c) % r.m := Int.emod_nonneg _ (by omega)
  have hs1 : (r.a * r.state + r.c) % r.m < r.m := Int.emod_lt_of_pos _ hm0
  have hmq : (0 : ℚ) < (r.m : ℚ) := by exact_mod_cast hm0
  have hq0 : 0 ≤ (r.random).1 := by
    simp only [ManualRNG.random]
    exact div_nonneg (by exact_mod_cast hs0) (le_of_lt hmq)
  have hq1 : (r.random).1 < 1 := by
    simp only [ManualRNG.random]
    exact (div_lt_one hmq).2 (by exact_mod_cast hs1)
  refine ⟨⟨rfl, rfl⟩, ⟨hq0, hq1⟩, ?_, ?_⟩
  · intro a b hab
    have hq0' : (0 : ℝ) ≤ ((r.random).1 : ℝ) := by exact_mod_cast hq0
    have hq1' : ((r.random).1 : ℝ) < 1 := by exact_mod_cast hq1
    constructor
    · show a ≤ a + (b - a) * ((r.random).1 : ℝ)
      nlinarith
    · show a + (b - a) * ((r.random).1 : ℝ) < b
      nlinarith
  · intro a b hab
    have hL : (1 : ℚ) ≤ (b : ℚ) - (a : ℚ) + 1 := by
      have : (a : ℚ) ≤ (b : ℚ) := by exact_mod_cast hab
      linarith
    have ht0 : 0 ≤ (r.random).1 * ((b : ℚ) - (a : ℚ) + 1) := mul_nonneg hq0 (by linarith)
    have htL : (r.random).1 * ((b : ℚ) - (a : ℚ) + 1) < (b : ℚ) - (a : ℚ) + 1 := by
      nlinarith
    have hpy : pyInt ((r.random).1 * ((b : ℚ) - (a : ℚ) + 1)) =
        ⌊(r.random).1 * ((b : ℚ) - (a : ℚ) + 1)⌋ := by
      simp [pyInt, ht0]
    have hfl0 : 0 ≤ ⌊(r.random).1 * ((b : ℚ) - (a : ℚ) + 1)⌋ := Int.floor_nonneg.2 ht0
    have hflL : ⌊(r.random).1 * ((b : ℚ) - (a : ℚ) + 1)⌋ < b - a + 1 := by
      apply Int.floor_lt.2
      have : (((b - a + 1 : ℤ)) : ℚ) = (b : ℚ) - (a : ℚ) + 1 := by push_cast; ring
      rw [this]
      exact htL
    constructor
    · show a ≤ a + pyInt ((r.random).1 * ((b : ℚ) - (a : ℚ) + 1))
      rw [hpy]; omega
    · show a + pyInt ((r.random).1 * ((b : ℚ) - (a : ℚ) + 1)) ≤ b
      rw [hpy]; omega

/-- Witness for C9 at the seed-42 generator with `uniform(2,5)` and
`randint(3,7)`. -/
theorem rng_contract_witness :
    (((ManualRNG.init 42).random).2.state =
      ((ManualRNG.init 42).a * (ManualRNG.init 42).state + (ManualRNG.init 42).c) %
        (ManualRNG.init 42).m) ∧
    (0 ≤ ((ManualRNG.init 42).random).1 ∧ ((ManualRNG.init 42).random).1 < 1) ∧
    ((2 : ℝ) ≤ ((ManualRNG.init 42).uniform 2 5).1 ∧ ((ManualRNG.init 42).uniform 2 5).1 < 5) ∧
    ((3 : ℤ) ≤ ((ManualRNG.init 42).randint 3 7).1 ∧ ((ManualRNG.init 42).randint 3 7).1 ≤ 7) := by
  have T := rng_contract (ManualRNG.init 42) rfl rfl rfl
  exact ⟨T.1.1, T.2.1, T.2.2.1 2 5 (by norm_num), T.2.2.2 3 7 (by norm_num)⟩

/-! ## Claim C10 : RNG zero-state safety -/

/-- Helper: 16807 is invertible mod the prime modulus, so a step of
the multiplicative LCG cannot reach 0 from a nonzero residue. -/
theorem lcg_next_nonzero (s : ℤ) (h : s % 2147483647 ≠ 0) :
    (16807 * s) % 2147483647 ≠ 0 := by
  intro h0
  have hd : (2147483647 : ℤ) ∣ 16807 * s := Int.dvd_iff_emod_eq_zero.2 h0
  have hcop : IsCoprime (2147483647 : ℤ) 16807 := by
    have h16 : IsCoprime (16807 : ℤ) 2147483647 := by norm_num
    exact h16.symm
  exact h (Int.dvd_iff_emod_eq_zero.1 (hcop.dvd_of_dvd_mul_left hd))

/-- C10: from any seed in `[1, 2147483647)` the LCG state stays
nonzero modulo the modulus, every `random()` output is strictly
between 0 and 1, and the `u1` fed to `log` inside `normal()` is never
0; conversely from a state divisible by the modulus every draw
returns 0 and `normal()` evaluates `log(0)` (its `u1` is 0). -/
theorem rng_zero_state_safety (s : ℤ) (h1 : 1 ≤ s) (h2 : s < 2147483647) :
    (∀ n : ℕ, ((ManualRNG.init s).drawN n).state % 2147483647 ≠ 0) ∧
    (∀ n : ℕ, 0 < (((ManualRNG.init s).drawN n).random).1 ∧
      (((ManualRNG.init s).drawN n).random).1 < 1) ∧
    (∀ n : ℕ, ((ManualRNG.init s).drawN n).normalU1 ≠ 0) ∧
    (∀ r : ManualRNG, r.m = 2147483647 → r.a = 16807 → r.c = 0 → r.state % r.m = 0 →
      (∀ n : ℕ, ((r.drawN n).random).1 = 0) ∧ r.normalU1 = 0) := by
  have hstate : ∀ n : ℕ, ((ManualRNG.init s).drawN n).state % 2147483647 ≠ 0 := by
    intro n
    induction n with
    | zero =>
        show s % 2147483647 ≠ 0
        rw [Int.emod_eq_of_lt (by linarith) h2]
        omega
    | succ n ih =>
        have hc := (ManualRNG.init s).drawN_const n
        have hstep : ((ManualRNG.init s).drawN (n + 1)).state =
            (16807 * ((ManualRNG.init s).drawN n).state + 0) % 2147483647 := by
          show (((ManualRNG.init s).drawN n).a * ((ManualRNG.init s).drawN n).state +
            ((ManualRNG.init s).drawN n).c) % ((ManualRNG.init s).drawN n).m =
            (16807 * ((ManualRNG.init s).drawN n).state + 0) % 2147483647
          rw [hc.1, hc.2.1, hc.2.2]
          rfl
        rw [hstep, add_zero, Int.emod_emod_of_dvd _ dvd_rfl]
        exact lcg_next_nonzero _ ih
  have hout : ∀ n : ℕ, 0 < (((ManualRNG.init s).drawN n).random).1 ∧
      (((ManualRNG.init s).drawN n).random).1 < 1 := by
    intro n
    have hc := (ManualRNG.init s).drawN_const n
    have hm0 : (0 : ℤ) < ((ManualRNG.init s).drawN n).m := by
      rw [hc.1]; norm_num [ManualRNG.init]
    set st := (ManualRNG.init s).drawN n with hst
    have hx0 : 0 ≤ (st.a * st.state + st.c) % st.m := Int.emod_nonneg _ (by omega)
    have hx1 : (st.a * st.state + st.c) % st.m < st.m := Int.emod_lt_of_pos _ hm0
    have hxne : (st.a * st.state + st.c) % st.m ≠ 0 := by
      have hs1 := hstate (n + 1)
      have heq : ((ManualRNG.init s).drawN (n + 1)).state = (st.a * st.state + st.c) % st.m :=
        rfl
      rw [heq] at hs1
      intro h0
      rw [h0] at hs1
      simp at hs1
    have hxpos : 0 < (st.a * st.state + st.c) % st.m := lt_of_le_of_ne hx0 (Ne.symm hxne)
    have hmq : (0 : ℚ) < (st.m : ℚ) := by exact_mod_cast hm0
    constructor
    · show 0 < ((((st.a * st.state + st.c) % st.m : ℤ)) : ℚ) / (st.m : ℚ)
      exact div_pos (by exact_mod_cast hxpos) hmq
    · show ((((st.a * st.state + st.c) % st.m : ℤ)) : ℚ) / (st.m : ℚ) < 1
      exact (div_lt_one hmq).2 (by exact_mod_cast hx1)
  refine ⟨hstate, hout, ?_, ?_⟩
  · intro n
    exact ne_of_gt (hout n).1
  · intro r hm ha hc h0
    have hzero : ∀ n : ℕ, (r.drawN n).state % 2147483647 = 0 := by
      intro n
      induction n with
      | zero => rw [← hm]; exact h0
      | succ n ih =>
          have hcn := r.drawN_const n
          have hstep : (r.drawN (n + 1)).state =
              (16807 * (r.drawN n).state + 0) % 2147483647 := by
            show ((r.drawN n).a * (r.drawN n).state + (r.drawN n).c) % (r.drawN n).m =
              (16807 * (r.drawN n).state + 0) % 2147483647
            rw [hcn.1, hcn.2.1, hcn.2.2, hm, ha, hc]
          rw [hstep, add_zero, Int.emod_emod_of_dvd _ dvd_rfl, Int.mul_emod, ih, mul_zero,
            Int.zero_emod]
    have hdraw : ∀ n : ℕ, ((r.drawN n).random).1 = 0 := by
      intro n
      have hcn := r.drawN_const n
      have hv : ((r.drawN n).a * (r.drawN n).state + (r.drawN n).c) % (r.drawN n).m = 0 := by
        rw [hcn.1, hcn.2.1, hcn.2.2, hm, ha, hc, add_zero, Int.mul_emod, hzero n, mul_zero,
          Int.zero_emod]
      show ((((r.drawN n).a * (r.drawN n).state + (r.drawN n).c) % (r.drawN n).m : ℤ) : ℚ) /
        ((r.drawN n).m : ℚ) = 0
      rw [hv]
      simp
    refine ⟨hdraw, ?_⟩
    have := hdraw 0
    exact this

/-- Witness for C10 at seed 1 and at an explicit zero-state
generator. -/
theorem rng_zero_state_safety_witness :
    ((ManualRNG.init 1).drawN 0).state % 2147483647 ≠ 0 ∧
    (0 < (((ManualRNG.init 1).drawN 1).random).1 ∧
      (((ManualRNG.init 1).drawN 1).random).1 < 1) ∧
    ((ManualRNG.init 1).drawN 2).normalU1 ≠ 0 ∧
    (((ManualRNG.mk 2147483647 16807 0 0).drawN 3).random).1 = 0 ∧
    (ManualRNG.mk 2147483647 16807 0 0).normalU1 = 0 := by
  have T := rng_zero_state_safety 1 (by norm_num) (by norm_num)
  refine ⟨T.1 0, T.2.1 1, T.2.2.1 2, ?_, ?_⟩
  · exact (T.2.2.2 (ManualRNG.mk 2147483647 16807 0 0) rfl rfl rfl (by decide)).1 3
  · exact (T.2.2.2 (ManualRNG.mk 2147483647 16807 0 0) rfl rfl rfl (by decide)).2

/-! ## Claim C6 : decay correctness and semigroup property -/

/-- Helper: decaying by 0 elapsed time is the identity. -/
theorem Map.step_zero (m : Map) : m.step 0 = m := by
  cases m with
  | mk w h mv er vals =>
      simp only [Map.step]
      congr 1
      funext gy gx
      rw [mul_zero, Real.exp_zero, mul_one]

/-- Helper: two consecutive decay steps compose into one step over the
summed elapsed time. -/
theorem Map.step_add (m : Map) (t1 t2 : ℝ) : (m.step t1).step t2 = m.step (t1 + t2) := by
  cases m with
  | mk w h mv er vals =>
      simp only [Map.step]
      congr 1
      funext gy gx
      rw [mul_assoc, ← Real.exp_add]
      congr 1
      ring

/-- C6: with a positive decay factor, a decay step over elapsed time
`T` multiplies every cell exactly by `decayFactor ^ T`, and any
sequence of steps equals the single step over the summed elapsed time
(semigroup property); the exact ODE flow modelling `step` makes the
claimed closed-form equivalence an equality. -/
theorem decay_closed_form :
    (∀ (m : Map) (T : ℝ) (gy gx : ℤ), 0 < m.evaporation_rate →
      (m.step T).map_vals gy gx = m.map_vals gy gx * m.evaporation_rate ^ T) ∧
    (∀ (m : Map) (dts : List ℝ), dts.foldl Map.step m = m.step dts.sum) := by
  constructor
  · intro m T gy gx h
    show m.map_vals gy gx * Real.exp (-(-Real.log m.evaporation_rate) * T) =
      m.map_vals gy gx * m.evaporation_rate ^ T
    rw [neg_neg, Real.rpow_def_of_pos h]
  · intro m dts
    induction dts generalizing m with
    | nil => simp [Map.step_zero]
    | cons d ds ih =>
        rw [List.foldl_cons, ih, Map.step_add, List.sum_cons]

/-- Witness for C6 on a 150x100 map with the default decay factor. -/
theorem decay_closed_form_witness :
    (((Map.init 150 100 100 (999/1000)).step 2).map_vals 0 0 =
      (Map.init 150 100 100 (999/1000)).map_vals 0 0 *
        (Map.init 150 100 100 (999/1000)).evaporation_rate ^ (2 : ℝ)) ∧
    ([(1 : ℝ), 2].foldl Map.step (Map.init 150 100 100 (999/1000)) =
      (Map.init 150 100 100 (999/1000)).step ([(1 : ℝ), 2].sum)) := by
  have T := decay_closed_form
  exact ⟨T.1 _ 2 0 0 (by norm_num [Map.init]), T.2 _ [1, 2]⟩

/-! ## Claim C7 : field write monotonicity -/

/-- C7: `set_value` never decreases any cell (it writes only when the
new value exceeds the current one), writes preserve nonnegativity, a
fresh map is all zero, and a decay step with `dt > 0` and decay factor
in `(0, 1]` never increases a nonnegative cell. -/
theorem field_write_monotonicity :
    (∀ (m : Map) (x y : ℤ) (val : ℝ) (gy gx : ℤ),
      m.map_vals gy gx ≤ (m.set_value x y val).map_vals gy gx) ∧
    (∀ (m : Map) (x y : ℤ) (val : ℝ) (gy gx : ℤ),
      0 ≤ m.map_vals gy gx → 0 ≤ (m.set_value x y val).map_vals gy gx) ∧
    (∀ (w h : ℤ) (mv er : ℝ) (gy gx : ℤ), (Map.init w h mv er).map_vals gy gx = 0) ∧
    (∀ (m : Map) (dt : ℝ) (gy gx : ℤ), 0 < dt → 0 < m.evaporation_rate →
      m.evaporation_rate ≤ 1 → 0 ≤ m.map_vals gy gx →
      (m.step dt).map_vals gy gx ≤ m.map_vals gy gx) := by
  have hwrite : ∀ (m : Map) (x y : ℤ) (val : ℝ) (gy gx : ℤ),
      m.map_vals gy gx ≤ (m.set_value x y val).map_vals gy gx := by
    intro m x y val gy gx
    simp only [Map.set_value]
    split_ifs with h1 h2
    · by_cases hc : gy = Int.fdiv y 4 ∧ gx = Int.fdiv x 4
      · show m.map_vals gy gx ≤ if gy = Int.fdiv y 4 ∧ gx = Int.fdiv x 4 then val
          else m.map_vals gy gx
        rw [if_pos hc, hc.1, hc.2]
        exact le_of_lt h2
      · show m.map_vals gy gx ≤ if gy = Int.fdiv y 4 ∧ gx = Int.fdiv x 4 then val
          else m.map_vals gy gx
        rw [if_neg hc]
    · exact le_refl _
    · exact le_refl _
  refine ⟨hwrite, ?_, ?_, ?_⟩
  · intro m x y val gy gx h0
    exact le_trans h0 (hwrite m x y val gy gx)
  · intro w h mv er gy gx
    rfl
  · intro m dt gy gx hdt her1 her2 hval
    show m.map_vals gy gx * Real.exp (-(-Real.log m.evaporation_rate) * dt) ≤
      m.map_vals gy gx
    have hlog : Real.log m.evaporation_rate ≤ 0 := Real.log_nonpos (le_of_lt her1) her2
    have harg : Real.log m.evaporation_rate * dt ≤ 0 := by nlinarith
    have hexp : Real.exp (-(-Real.log m.evaporation_rate) * dt) ≤ 1 := by
      rw [neg_neg]
      exact Real.exp_le_one_iff.2 harg
    exact mul_le_of_le_one_right hval hexp

/-- Witness for C7 on a fresh 150x100 map, a write of 5 at world
coordinates `(12, 8)`, and a unit decay step. -/
theorem field_write_monotonicity_witness :
    ((Map.init 150 100 100 (999/1000)).map_vals 2 3 ≤
      ((Map.init 150 100 100 (999/1000)).set_value 12 8 5).map_vals 2 3) ∧
    (0 ≤ ((Map.init 150 100 100 (999/1000)).set_value 12 8 5).map_vals 2 3) ∧
    ((Map.init 150 100 100 (999/1000)).map_vals 2 3 = 0) ∧
    (((Map.init 150 100 100 (999/1000)).step 1).map_vals 2 3 ≤
      (Map.init 150 100 100 (999/1000)).map_vals 2 3) := by
  have T := field_write_monotonicity
  refine ⟨T.1 _ 12 8 5 2 3, T.2.1 _ 12 8 5 2 3 (by simp [Map.init]),
    T.2.2.1 150 100 100 (999/1000) 2 3,
    T.2.2.2 _ 1 2 3 (by norm_num) (by norm_num [Map.init]) (by norm_num [Map.init])
      (by simp [Map.init])⟩

/-! ## Claim C2 : bounds safety of the field operations -/

/-- Helper: membership bounds for the Python `range(a, b)` list. -/
theorem intRange_mem {a b j : ℤ} (h : j ∈ intRange a b) : a ≤ j ∧ j < b := by
  unfold intRange at h
  rw [List.mem_map] at h
  obtain ⟨k, hk, hj⟩ := h
  rw [List.mem_range] at hk
  subst hj
  omega

/-- Helper: numpy index resolution succeeds on `[-n, n)`. -/
theorem npWrap_isSome {n i : ℤ} (h1 : -n ≤ i) (h2 : i < n) : ∃ i2, npWrap n i = some i2 := by
  unfold npWrap
  by_cases h : 0 ≤ i ∧ i < n
  · exact ⟨i, if_pos h⟩
  · have h' : -n ≤ i ∧ i < 0 := by omega
    rw [if_neg h, if_pos h']
    exact ⟨i + n, rfl⟩

/-- Helper: an unguarded numpy write succeeds when both indices are in
the wrapped range, and it preserves the grid dimensions. -/
theorem npSet_ok {f : Food} {i j : ℤ} (b : Bool) (hi1 : -f.height ≤ i) (hi2 : i < f.height)
    (hj1 : -f.width ≤ j) (hj2 : j < f.width) :
    ∃ f2, f.npSet i j b = Except.ok f2 ∧ f2.width = f.width ∧ f2.height = f.height := by
  obtain ⟨i2, hw1⟩ := npWrap_isSome hi1 hi2
  obtain ⟨j2, hw2⟩ := npWrap_isSome hj1 hj2
  exact ⟨{ f with map_vals := fun gy gx => if gy = i2 ∧ gx = j2 then b else f.map_vals gy gx },
    by simp [Food.npSet, hw1, hw2], rfl, rfl⟩

/-- Helper: a row of in-range numpy writes succeeds and preserves the
grid dimensions. -/
theorem foldlM_npSet_ok (i : ℤ) (b : Bool) :
    ∀ (js : List ℤ) (f : Food), -f.height ≤ i → i < f.height →
      (∀ j ∈ js, -f.width ≤ j ∧ j < f.width) →
      ∃ f2, js.foldlM (fun fb j => fb.npSet i j b) f = Except.ok f2 ∧
        f2.width = f.width ∧ f2.height = f.height := by
  intro js
  induction js with
  | nil => intro f _ _ _; exact ⟨f, rfl, rfl, rfl⟩
  | cons j js ih =>
      intro f h1 h2 h3
      obtain ⟨f1, he, hw, hh⟩ :=
        npSet_ok b h1 h2 (h3 j (by simp)).1 (h3 j (by simp)).2
      obtain ⟨f2, he2, hw2, hh2⟩ := ih f1 (by rw [hh]; exact h1) (by rw [hh]; exact h2)
        (fun j2 hj2 => by rw [hw]; exact h3 j2 (by simp [hj2]))
      refine ⟨f2, ?_, by rw [hw2, hw], by rw [hh2, hh]⟩
      show (f.npSet i j b >>= fun fb => js.foldlM (fun fb j => fb.npSet i j b) fb) =
        Except.ok f2
      rw [he]
      exact he2

/-- Helper: the whole `add_food` write loop succeeds when the starting
cell is not below `(-width, -height)`. -/
theorem add_food_rows_ok (gx : ℤ) :
    ∀ (is : List ℤ) (f : Food), -f.width ≤ gx →
      (∀ i ∈ is, -f.height ≤ i ∧ i < f.height) →
      ∃ f2, is.foldlM
        (fun fa i => (intRange gx (min (gx + 5) fa.width)).foldlM
          (fun fb j => fb.npSet i j true) fa) f = Except.ok f2 := by
  intro is
  induction is with
  | nil => intro f _ _; exact ⟨f, rfl⟩
  | cons i is ih =>
      intro f hgx hmem
      have hrow : ∀ j ∈ intRange gx (min (gx + 5) f.width), -f.width ≤ j ∧ j < f.width := by
        intro j hj
        have := intRange_mem hj
        omega
      obtain ⟨f1, he, hw, hh⟩ := foldlM_npSet_ok i true (intRange gx (min (gx + 5) f.width)) f
        (hmem i (by simp)).1 (hmem i (by simp)).2 hrow
      obtain ⟨f2, he2⟩ := ih f1 (by rw [hw]; exact hgx)
        (fun i2 hi2 => by rw [hh]; exact hmem i2 (by simp [hi2]))
      refine ⟨f2, ?_⟩
      show ((intRange gx (min (gx + 5) f.width)).foldlM (fun fb j => fb.npSet i j true) f >>=
        fun fa => is.foldlM (fun fa i =>
          (intRange gx (min (gx + 5) fa.width)).foldlM (fun fb j => fb.npSet i j true) fa) fa) =
        Except.ok f2
      rw [he]
      exact he2

/-- C2 (amended to integer inputs): the guarded field operations
`get_value`, `set_value`, `bite` and the food `get_value` are total on
all integer coordinates, out-of-bounds reads return the sentinel (-1,
resp. false) and out-of-bounds writes are no-ops; `add_food` completes
without raising whenever the mapped cell is componentwise at least
`(-width, -height)`. -/
theorem field_bounds_safety_int :
    (∀ (m : Map) (x y : ℤ),
      ¬ (0 ≤ Int.fdiv x 4 ∧ Int.fdiv x 4 < m.width ∧ 0 ≤ Int.fdiv y 4 ∧
          Int.fdiv y 4 < m.height) →
      m.get_value x y = -1) ∧
    (∀ (m : Map) (x y : ℤ) (val : ℝ),
      ¬ (0 ≤ Int.fdiv x 4 ∧ Int.fdiv x 4 < m.width ∧ 0 ≤ Int.fdiv y 4 ∧
          Int.fdiv y 4 < m.height) →
      m.set_value x y val = m) ∧
    (∀ (f : Food) (x y : ℤ),
      ¬ (0 ≤ Int.fdiv x 4 ∧ Int.fdiv x 4 < f.width ∧ 0 ≤ Int.fdiv y 4 ∧
          Int.fdiv y 4 < f.height) →
      f.get_value x y = false) ∧
    (∀ (f : Food) (x y : ℤ),
      ¬ (0 ≤ Int.fdiv x 4 ∧ Int.fdiv x 4 < f.width ∧ 0 ≤ Int.fdiv y 4 ∧
          Int.fdiv y 4 < f.height) →
      f.bite x y = f) ∧
    (∀ (f : Food) (x y : ℤ), -f.height ≤ Int.fdiv y 4 → -f.width ≤ Int.fdiv x 4 →
      ∃ f2, f.add_food x y = Except.ok f2) := by
  refine ⟨?_, ?_, ?_, ?_, ?_⟩
  · intro m x y h
    simp only [Map.get_value]
    rw [if_neg h]
  · intro m x y val h
    simp only [Map.set_value]
    rw [if_neg h]
  · intro f x y h
    simp only [Food.get_value]
    rw [if_neg h]
  · intro f x y h
    simp only [Food.bite]
    rw [if_neg h]
  · intro f x y hy hx
    unfold Food.add_food
    refine add_food_rows_ok (Int.fdiv x 4) _ f hx ?_
    intro i hi
    have := intRange_mem hi
    omega

/-- Counterexample for C2 as stated: `add_food(-4000, 0)` on the
150x100 food grid maps to cell column -1000, which numpy cannot wrap,
so the write raises `IndexError` (modelled as `Except.error ()`). -/
theorem add_food_raises_counterexample :
    (Food.init 150 100).add_food (-4000) 0 = Except.error () := rfl

/-- Witness for C2 on the 150x100 grids: out-of-bounds reads and
writes at world x = 700, and a wrapped but in-range `add_food` at
`(-4, -4)`. -/
theorem field_bounds_safety_witness :
    ((Map.init 150 100 100 (999/1000)).get_value 700 0 = -1) ∧
    ((Map.init 150 100 100 (999/1000)).set_value 700 0 5 = Map.init 150 100 100 (999/1000)) ∧
    ((Food.init 150 100).get_value 700 0 = false) ∧
    ((Food.init 150 100).bite 700 0 = Food.init 150 100) ∧
    (∃ f2, (Food.init 150 100).add_food (-4) (-4) = Except.ok f2) := by
  have T := field_bounds_safety_int
  refine ⟨T.1 _ 700 0 ?_, T.2.1 _ 700 0 5 ?_, T.2.2.1 _ 700 0 ?_, T.2.2.2.1 _ 700 0 ?_,
    T.2.2.2.2 _ (-4) (-4) ?_ ?_⟩
  · intro h
    exact absurd h.2.1 (by decide)
  · intro h
    exact absurd h.2.1 (by decide)
  · intro h
    exact absurd h.2.1 (by decide)
  · intro h
    exact absurd h.2.1 (by decide)
  · show -(Food.init 150 100).height ≤ Int.fdiv (-4) 4
    decide
  · show -(Food.init 150 100).width ≤ Int.fdiv (-4) 4
    decide

/-! ## Claim C8 : conservation under delivery -/

/-- Helper: processing one ant never decreases the delivery counter. -/
theorem updateAnt_delivered_le (nx ny : ℤ) (dt : ℝ) (st : UpdState) (a : Ant) :
    st.delivered ≤ (Colony.updateAnt nx ny dt st a).delivered := by
  simp only [Colony.updateAnt]
  split_ifs <;> first | exact Nat.le_succ _ | exact le_refl _

/-- Helper: the per-ant loop never decreases the delivery counter. -/
theorem foldl_updateAnt_delivered_le (nx ny : ℤ) (dt : ℝ) :
    ∀ (ants : List Ant) (st : UpdState),
      st.delivered ≤ (ants.foldl (Colony.updateAnt nx ny dt) st).delivered := by
  intro ants
  induction ants with
  | nil => intro st; exact le_refl _
  | cons a ants ih =>
      intro st
      exact le_trans (updateAnt_delivered_le nx ny dt st a) (ih _)

/-- C8: processing one ant adds exactly the 0/1 delivery indicator of
the stepped ant to `food_delivered` and appends exactly one processed
ant to the output list (delivering ants leave with the carrying flag
cleared and `home_pher` reset to 100), so a delivery event is counted
exactly once; consequently `Colony.update` never decreases
`food_delivered`. -/
theorem delivery_conservation :
    (∀ (nx ny : ℤ) (dt : ℝ) (st : UpdState) (a : Ant),
      (Colony.updateAnt nx ny dt st a).delivered =
        st.delivered +
          (if (a.step st.homeM st.foodM st.rng dt).1.has_food = true ∧
              |(a.step st.homeM st.foodM st.rng dt).1.int_x - nx| < 20 ∧
              |(a.step st.homeM st.foodM st.rng dt).1.int_y - ny| < 20
            then 1 else 0)) ∧
    (∀ (nx ny : ℤ) (dt : ℝ) (st : UpdState) (a : Ant),
      (Colony.updateAnt nx ny dt st a).done =
        st.done ++
          [if (a.step st.homeM st.foodM st.rng dt).1.has_food = true ∧
              |(a.step st.homeM st.foodM st.rng dt).1.int_x - nx| < 20 ∧
              |(a.step st.homeM st.foodM st.rng dt).1.int_y - ny| < 20
            then { (a.step st.homeM st.foodM st.rng dt).1 with
                has_food := false, home_pher := 100 }
            else if (a.step st.homeM st.foodM st.rng dt).1.has_food = false ∧
                st.food.get_value (a.step st.homeM st.foodM st.rng dt).1.int_x
                  (a.step st.homeM st.foodM st.rng dt).1.int_y = true
              then { (a.step st.homeM st.foodM st.rng dt).1 with
                  has_food := true, food_pher := 100 }
              else (a.step st.homeM st.foodM st.rng dt).1]) ∧
    (∀ (c : Colony) (food : Food) (homeM foodM : Map) (rng : ManualRNG) (dt : ℝ),
      c.food_delivered ≤ (c.update food homeM foodM rng dt).1.food_delivered) := by
  refine ⟨?_, ?_, ?_⟩
  · intro nx ny dt st a
    by_cases hf : (a.step st.homeM st.foodM st.rng dt).1.has_food = true
    · by_cases hbox : |(a.step st.homeM st.foodM st.rng dt).1.int_x - nx| < 20 ∧
          |(a.step st.homeM st.foodM st.rng dt).1.int_y - ny| < 20
      · simp [Colony.updateAnt, hf, hbox]
      · simp [Colony.updateAnt, hf, hbox]
    · by_cases hfv : st.food.get_value (a.step st.homeM st.foodM st.rng dt).1.int_x
          (a.step st.homeM st.foodM st.rng dt).1.int_y = true
      · simp [Colony.updateAnt, hf, hfv]
      · simp [Colony.updateAnt, hf, hfv]
  · intro nx ny dt st a
    by_cases hf : (a.step st.homeM st.foodM st.rng dt).1.has_food = true
    · by_cases hbox : |(a.step st.homeM st.foodM st.rng dt).1.int_x - nx| < 20 ∧
          |(a.step st.homeM st.foodM st.rng dt).1.int_y - ny| < 20
      · simp [Colony.updateAnt, hf, hbox]
      · simp [Colony.updateAnt, hf, hbox]
    · by_cases hfv : st.food.get_value (a.step st.homeM st.foodM st.rng dt).1.int_x
          (a.step st.homeM st.foodM st.rng dt).1.int_y = true
      · simp [Colony.updateAnt, hf, hfv]
      · simp [Colony.updateAnt, hf, hfv]
  · intro c food homeM foodM rng dt
    exact foldl_updateAnt_delivered_le c.x c.y dt c.ants
      ⟨[], homeM, foodM, food, rng, c.food_delivered⟩

/-! ## Claim C4 : velocity clamp invariant -/

/-- Helper: the deposit phase does not change velocity, carrying state
or the integer position. -/
theorem Ant.stepDeposit_proj (a : Ant) (hm fm : Map) :
    (a.stepDeposit hm fm).1.dx = a.dx ∧ (a.stepDeposit hm fm).1.dy = a.dy ∧
    (a.stepDeposit hm fm).1.has_food = a.has_food ∧
    (a.stepDeposit hm fm).1.int_x = a.int_x ∧ (a.stepDeposit hm fm).1.int_y = a.int_y := by
  simp only [Ant.stepDeposit]
  split_ifs <;> exact ⟨rfl, rfl, rfl, rfl, rfl⟩

/-- Helper: both velocity components are inside [-1, 1] when
`Ant.step` returns (the clamp is the last velocity operation). -/
theorem ant_step_vel_bounds (a : Ant) (hm fm : Map) (rng : ManualRNG) (dt : ℝ) :
    -1 ≤ (a.step hm fm rng dt).1.dx ∧ (a.step hm fm rng dt).1.dx ≤ 1 ∧
    -1 ≤ (a.step hm fm rng dt).1.dy ∧ (a.step hm fm rng dt).1.dy ≤ 1 := by
  have hd := Ant.stepDeposit_proj ((a.stepVel hm fm rng dt).1.stepMove dt) hm fm
  have hdx : (a.step hm fm rng dt).1.dx = (a.stepVel hm fm rng dt).1.dx := hd.1
  have hdy : (a.step hm fm rng dt).1.dy = (a.stepVel hm fm rng dt).1.dy := hd.2.1
  rw [hdx, hdy]
  exact ⟨le_max_right _ _, max_le (le_trans (min_le_right _ _) (le_refl 1)) (by norm_num),
    le_max_right _ _, max_le (le_trans (min_le_right _ _) (le_refl 1)) (by norm_num)⟩

/-- Helper: appending one element to a list preserves `Forall`. -/
theorem forall_append_one {P : Ant → Prop} {l : List Ant} {e : Ant}
    (hl : l.Forall P) (he : P e) : (l ++ [e]).Forall P := by
  rw [List.forall_iff_forall_mem] at hl ⊢
  intro x hx
  rcases List.mem_append.1 hx with h | h
  · exact hl x h
  · rw [List.mem_singleton] at h
    subst h
    exact he

/-- Helper: processing one ant only appends ants whose velocity is
clamped. -/
theorem updateAnt_done_vel (nx ny : ℤ) (dt : ℝ) (st : UpdState) (a : Ant)
    (h : st.done.Forall fun a2 => -1 ≤ a2.dx ∧ a2.dx ≤ 1 ∧ -1 ≤ a2.dy ∧ a2.dy ≤ 1) :
    (Colony.updateAnt nx ny dt st a).done.Forall
      (fun a2 => -1 ≤ a2.dx ∧ a2.dx ≤ 1 ∧ -1 ≤ a2.dy ∧ a2.dy ≤ 1) := by
  have hb := ant_step_vel_bounds a st.homeM st.foodM st.rng dt
  simp only [Colony.updateAnt]
  split_ifs <;> exact forall_append_one h hb

/-- Helper: the per-ant loop of `Colony.update` preserves the clamped
velocity property of the output list. -/
theorem foldl_updateAnt_done_vel (nx ny : ℤ) (dt : ℝ) :
    ∀ (ants : List Ant) (st : UpdState),
      (st.done.Forall fun a2 => -1 ≤ a2.dx ∧ a2.dx ≤ 1 ∧ -1 ≤ a2.dy ∧ a2.dy ≤ 1) →
      ((ants.foldl (Colony.updateAnt nx ny dt) st).done.Forall
        fun a2 => -1 ≤ a2.dx ∧ a2.dx ≤ 1 ∧ -1 ≤ a2.dy ∧ a2.dy ≤ 1) := by
  intro ants
  induction ants with
  | nil => intro st h; exact h
  | cons a ants ih =>
      intro st h
      exact ih _ (updateAnt_done_vel nx ny dt st a h)

/-- C4 (amended): both velocity components lie in [-1, 1] at the end
of every `Ant.step`, hence for every agent after `Colony.update`; the
collision pass is excluded because it adds unclamped impulses. -/
theorem velocity_clamped_after_step :
    (∀ (a : Ant) (hm fm : Map) (rng : ManualRNG) (dt : ℝ),
      -1 ≤ (a.step hm fm rng dt).1.dx ∧ (a.step hm fm rng dt).1.dx ≤ 1 ∧
      -1 ≤ (a.step hm fm rng dt).1.dy ∧ (a.step hm fm rng dt).1.dy ≤ 1) ∧
    (∀ (c : Colony) (food : Food) (hm fm : Map) (rng : ManualRNG) (dt : ℝ),
      (c.update food hm fm rng dt).1.ants.Forall
        fun a2 => -1 ≤ a2.dx ∧ a2.dx ≤ 1 ∧ -1 ≤ a2.dy ∧ a2.dy ≤ 1) := by
  refine ⟨ant_step_vel_bounds, ?_⟩
  intro c food hm fm rng dt
  exact foldl_updateAnt_done_vel c.x c.y dt c.ants
    ⟨[], hm, fm, food, rng, c.food_delivered⟩ trivial

/-- Helper: with exactly two agents the collision pass is the single
pair body applied to indices `(0, 1)`. -/
theorem resolve_two_ants (a1 a2 : Ant) (cx cy : ℤ) (cn : ℕ) (rng : ManualRNG) :
    ((Colony.mk [a1, a2] cx cy cn).resolve_collisions rng).1.ants =
      (Colony.collidePair ([a1, a2], rng) (0, 1)).1 := by
  show ((pairIndices 2).foldl Colony.collidePair ([a1, a2], rng)).1 = _
  rw [show pairIndices 2 = [(0, 1)] from by decide]
  rfl


/-- Counterexample for C4 as stated: both input agents have clamped
velocities, yet after `resolve_collisions` the first agent's `dx`
exceeds 1 (the impulse is applied after the clamp and never
re-clamped). -/
theorem velocity_clamp_counterexample :
    (-1 ≤ antColA.dx ∧ antColA.dx ≤ 1 ∧ -1 ≤ antColA.dy ∧ antColA.dy ≤ 1) ∧
    (-1 ≤ antColB.dx ∧ antColB.dx ≤ 1 ∧ -1 ≤ antColB.dy ∧ antColB.dy ≤ 1) ∧
    1 < (((Colony.mk [antColA, antColB] 300 200 0).resolve_collisions
      (ManualRNG.init 1)).1.ants.getD 0 antDefault).dx := by
  have hs25 : Real.sqrt 25 = 5 := by
    rw [show (25 : ℝ) = 5 ^ 2 by norm_num]
    exact Real.sqrt_sq (by norm_num)
  refine ⟨⟨by norm_num [antColA], by norm_num [antColA], by norm_num [antColA],
      by norm_num [antColA]⟩,
    ⟨by norm_num [antColB], by norm_num [antColB], by norm_num [antColB],
      by norm_num [antColB]⟩, ?_⟩
  rw [resolve_two_ants]
  simp only [Colony.collidePair, antColA, antColB, List.getD_cons_zero, List.getD_cons_succ]
  norm_num [hs25]

/-! ## Claim C5 : zero-distance collision scenario -/

/-- Helper: two exactly overlapping agents with zero velocity end the
collision pass at center distance exactly 7.9 (the effective distance
0.1 makes the symmetric correction separate them by 8 - 0.1). -/
theorem resolve_two_overlap_dist (a1 a2 : Ant) (rng : ManualRNG)
    (hx : a1.x = a2.x) (hy : a1.y = a2.y) (h1 : a1.dx = 0) (h2 : a1.dy = 0)
    (h3 : a2.dx = 0) (h4 : a2.dy = 0) :
    Real.sqrt
      (((((Colony.mk [a1, a2] 0 0 0).resolve_collisions rng).1.ants.getD 0 antDefault).x -
          (((Colony.mk [a1, a2] 0 0 0).resolve_collisions rng).1.ants.getD 1 antDefault).x) ^ 2 +
        ((((Colony.mk [a1, a2] 0 0 0).resolve_collisions rng).1.ants.getD 0 antDefault).y -
          (((Colony.mk [a1, a2] 0 0 0).resolve_collisions rng).1.ants.getD 1 antDefault).y) ^ 2) =
      79/10 := by
  rw [resolve_two_ants]
  simp only [Colony.collidePair, List.getD_cons_zero, List.getD_cons_succ, hx, hy, h1, h2, h3,
    h4, sub_self]
  norm_num [Real.sqrt_zero]
  rw [show ∀ c s : ℝ, (79/20 * c + 79/20 * c) ^ 2 + (79/20 * s + 79/20 * s) ^ 2 =
      (79/10) ^ 2 * (c ^ 2 + s ^ 2) from fun c s => by ring]
  rw [Real.cos_sq_add_sin_sq, mul_one]
  exact Real.sqrt_sq (by norm_num)

/-- C5 (amended): with exactly two agents at identical coordinates and
zero velocity, `resolve_collisions` completes (the zero-distance
branch draws a random contact normal and uses effective distance 0.1)
and the resulting center distance is exactly 7.9 = 8 - 0.1, which is
just below the collision distance 8, not at least 8. -/
theorem resolve_zero_overlap_separation (a1 a2 : Ant) (rng : ManualRNG)
    (hx : a1.x = a2.x) (hy : a1.y = a2.y) (h1 : a1.dx = 0) (h2 : a1.dy = 0)
    (h3 : a2.dx = 0) (h4 : a2.dy = 0) :
    Real.sqrt
      (((((Colony.mk [a1, a2] 0 0 0).resolve_collisions rng).1.ants.getD 0 antDefault).x -
          (((Colony.mk [a1, a2] 0 0 0).resolve_collisions rng).1.ants.getD 1 antDefault).x) ^ 2 +
        ((((Colony.mk [a1, a2] 0 0 0).resolve_collisions rng).1.ants.getD 0 antDefault).y -
          (((Colony.mk [a1, a2] 0 0 0).resolve_collisions rng).1.ants.getD 1 antDefault).y) ^ 2) =
      79/10 :=
  resolve_two_overlap_dist a1 a2 rng hx hy h1 h2 h3 h4


/-- Witness for C5's amended claim on a concrete overlapping pair. -/
theorem resolve_zero_overlap_separation_witness :
    Real.sqrt
      (((((Colony.mk [antOverlap, antOverlap] 0 0 0).resolve_collisions
            (ManualRNG.init 7)).1.ants.getD 0 antDefault).x -
          (((Colony.mk [antOverlap, antOverlap] 0 0 0).resolve_collisions
            (ManualRNG.init 7)).1.ants.getD 1 antDefault).x) ^ 2 +
        ((((Colony.mk [antOverlap, antOverlap] 0 0 0).resolve_collisions
            (ManualRNG.init 7)).1.ants.getD 0 antDefault).y -
          (((Colony.mk [antOverlap, antOverlap] 0 0 0).resolve_collisions
            (ManualRNG.init 7)).1.ants.getD 1 antDefault).y) ^ 2) =
      79/10 :=
  resolve_zero_overlap_separation antOverlap antOverlap (ManualRNG.init 7) rfl rfl rfl rfl rfl
    rfl

/-- Counterexample for C5 as stated: after resolving the exact-overlap
pair the center distance is 7.9, so it is not at least the collision
distance 8. -/
theorem resolve_zero_overlap_counterexample :
    ¬ (8 ≤ Real.sqrt
      (((((Colony.mk [antOverlap, antOverlap] 0 0 0).resolve_collisions
            (ManualRNG.init 42)).1.ants.getD 0 antDefault).x -
          (((Colony.mk [antOverlap, antOverlap] 0 0 0).resolve_collisions
            (ManualRNG.init 42)).1.ants.getD 1 antDefault).x) ^ 2 +
        ((((Colony.mk [antOverlap, antOverlap] 0 0 0).resolve_collisions
            (ManualRNG.init 42)).1.ants.getD 0 antDefault).y -
          (((Colony.mk [antOverlap, antOverlap] 0 0 0).resolve_collisions
            (ManualRNG.init 42)).1.ants.getD 1 antDefault).y) ^ 2)) := by
  rw [resolve_two_overlap_dist antOverlap antOverlap (ManualRNG.init 42) rfl rfl rfl rfl rfl
    rfl]
  norm_num

/-! ## Claim C3 : pheromone deposition condition -/


/-- Helper: concrete evaluation of the velocity phase of `Ant.step`
for `antC3` with the seed-1 generator (three draws, no wander nudges,
idle tick consumed, boundary repulsion from the left edge sets
`dx = 1`). -/
theorem antC3_stepVel :
    antC3.stepVel mapM150 mapM150 (ManualRNG.init 1) 1 =
      (⟨1, 0, 1, 9, 1, 9, 1, 9, false, 100, 100, 995/1000, 92/100, 0⟩,
        (ManualRNG.init 1).drawN 3) := by
  simp only [Ant.stepVel, ManualRNG.random, ManualRNG.init, antC3, ManualRNG.drawN]
  norm_num

/-- Helper: `Ant.step` is the composition of its velocity, movement
and deposition phases. -/
theorem step_eq (a : Ant) (hm fm : Map) (rng : ManualRNG) (dt : ℝ) :
    a.step hm fm rng dt =
      ((((a.stepVel hm fm rng dt).1.stepMove dt).stepDeposit hm fm).1,
       (((a.stepVel hm fm rng dt).1.stepMove dt).stepDeposit hm fm).2.1,
       (((a.stepVel hm fm rng dt).1.stepMove dt).stepDeposit hm fm).2.2,
       (a.stepVel hm fm rng dt).2) := rfl

/-- Helper: concrete evaluation of the full step of `antC3`: the ant
moves from x = 1 to x = 2 (same grid cell 0), and the home map cell
(row 2, column 0) receives the deposit `100 * 0.995`. -/
theorem antC3_step_proj :
    (antC3.step mapM150 mapM150 (ManualRNG.init 1) 1).1.int_x = 2 ∧
    (antC3.step mapM150 mapM150 (ManualRNG.init 1) 1).1.int_y = 9 ∧
    (antC3.step mapM150 mapM150 (ManualRNG.init 1) 1).2.1.map_vals 2 0 = 100 * (995/1000) := by
  have hf2 : Int.fdiv 2 4 = 0 := by decide
  have hf9 : Int.fdiv 9 4 = 2 := by decide
  rw [step_eq, antC3_stepVel]
  norm_num [Ant.stepMove, pyIntR, Ant.stepDeposit, Map.set_value, mapM150, Map.init, hf2, hf9]

/-- Helper: the three branches of the deposition phase. -/
theorem stepDeposit_cases (a : Ant) (hm fm : Map) :
    (a.last_x = a.int_x ∧ a.last_y = a.int_y →
      a.stepDeposit hm fm = ({ a with last_x := a.int_x, last_y := a.int_y }, hm, fm)) ∧
    (¬ (a.last_x = a.int_x ∧ a.last_y = a.int_y) →
      (a.has_food = true →
        a.stepDeposit hm fm =
          ({ a with food_pher := a.food_pher * a.use_rate, last_x := a.int_x, last_y := a.int_y },
            hm, fm.set_value a.int_x a.int_y (a.food_pher * a.use_rate))) ∧
      (a.has_food = false →
        a.stepDeposit hm fm =
          ({ a with home_pher := a.home_pher * a.use_rate, last_x := a.int_x, last_y := a.int_y },
            hm.set_value a.int_x a.int_y (a.home_pher * a.use_rate), fm))) := by
  refine ⟨?_, ?_⟩
  · intro h
    simp only [Ant.stepDeposit]
    rw [if_neg (by simp [h.1, h.2])]
  · intro hne
    refine ⟨?_, ?_⟩
    · intro hf
      simp only [Ant.stepDeposit]
      rw [if_pos (by tauto), if_pos hf]
    · intro hf
      simp only [Ant.stepDeposit]
      rw [if_pos (by tauto), if_neg (by simp [hf])]

/-- C3 (amended): in every `Ant.step` a deposit occurs if and only if
the agent's integer position `(int(x), int(y))` changed since the
previous tick (not the 4-unit grid cell); when it occurs, the active
scent strength is first multiplied by `use_rate` (0.995) and the
already-decayed value is deposited into the field matching the
carrying state. -/
theorem deposit_follows_int_cell (a : Ant) (hm fm : Map) (rng : ManualRNG) (dt : ℝ) :
    ((a.step hm fm rng dt).1.int_x = a.last_x ∧ (a.step hm fm rng dt).1.int_y = a.last_y →
      (a.step hm fm rng dt).2.1 = hm ∧ (a.step hm fm rng dt).2.2.1 = fm ∧
      (a.step hm fm rng dt).1.home_pher = a.home_pher ∧
      (a.step hm fm rng dt).1.food_pher = a.food_pher) ∧
    (¬ ((a.step hm fm rng dt).1.int_x = a.last_x ∧
        (a.step hm fm rng dt).1.int_y = a.last_y) →
      (a.has_food = true →
        (a.step hm fm rng dt).2.2.1 =
          fm.set_value (a.step hm fm rng dt).1.int_x (a.step hm fm rng dt).1.int_y
            (a.food_pher * a.use_rate) ∧
        (a.step hm fm rng dt).1.food_pher = a.food_pher * a.use_rate ∧
        (a.step hm fm rng dt).2.1 = hm) ∧
      (a.has_food = false →
        (a.step hm fm rng dt).2.1 =
          hm.set_value (a.step hm fm rng dt).1.int_x (a.step hm fm rng dt).1.int_y
            (a.home_pher * a.use_rate) ∧
        (a.step hm fm rng dt).1.home_pher = a.home_pher * a.use_rate ∧
        (a.step hm fm rng dt).2.2.1 = fm)) := by
  set MV := (a.stepVel hm fm rng dt).1.stepMove dt with hMV
  have hproj := Ant.stepDeposit_proj MV hm fm
  have e0 : (a.step hm fm rng dt).1 = (MV.stepDeposit hm fm).1 := rfl
  have e1 : (a.step hm fm rng dt).2.1 = (MV.stepDeposit hm fm).2.1 := rfl
  have e2 : (a.step hm fm rng dt).2.2.1 = (MV.stepDeposit hm fm).2.2 := rfl
  have hlastx : MV.last_x = a.last_x := rfl
  have hlasty : MV.last_y = a.last_y := rfl
  by_cases hc : MV.last_x = MV.int_x ∧ MV.last_y = MV.int_y
  · have hdep := (stepDeposit_cases MV hm fm).1 hc
    constructor
    · intro _
      rw [e0, e1, e2, hdep]
      exact ⟨rfl, rfl, rfl, rfl⟩
    · intro hne
      exfalso
      apply hne
      constructor
      · rw [e0, hproj.2.2.2.1, ← hc.1, hlastx]
      · rw [e0, hproj.2.2.2.2, ← hc.2, hlasty]
  · constructor
    · intro hC
      exfalso
      apply hc
      constructor
      · rw [hlastx, ← hC.1, e0, hproj.2.2.2.1]
      · rw [hlasty, ← hC.2, e0, hproj.2.2.2.2]
    · intro _
      constructor
      · intro hf
        have hdep := ((stepDeposit_cases MV hm fm).2 hc).1 hf
        refine ⟨?_, ?_, ?_⟩
        · rw [e2, e0, hdep]
          rfl
        · rw [e0, hdep]
          rfl
        · rw [e1, hdep]
      · intro hf
        have hdep := ((stepDeposit_cases MV hm fm).2 hc).2 hf
        refine ⟨?_, ?_, ?_⟩
        · rw [e1, e0, hdep]
          rfl
        · rw [e0, hdep]
          rfl
        · rw [e2, hdep]

/-- Counterexample for C3 as stated: stepping `antC3` keeps its grid
cell unchanged (cell (0, 2) both before and after: both x = 1 and
x = 2 map to column 0), yet a deposit happened — the home-map cell
went from 0 to `100 * 0.995` — and the deposited value is the
post-decay scent, not the pre-decay 100. -/
theorem deposit_grid_cell_counterexample :
    Int.fdiv (antC3.step mapM150 mapM150 (ManualRNG.init 1) 1).1.int_x 4 =
      Int.fdiv antC3.last_x 4 ∧
    Int.fdiv (antC3.step mapM150 mapM150 (ManualRNG.init 1) 1).1.int_y 4 =
      Int.fdiv antC3.last_y 4 ∧
    (antC3.step mapM150 mapM150 (ManualRNG.init 1) 1).2.1.map_vals 2 0 = 100 * (995/1000) ∧
    mapM150.map_vals 2 0 = 0 := by
  have h := antC3_step_proj
  refine ⟨?_, ?_, h.2.2, rfl⟩
  · rw [h.1]
    decide
  · rw [h.2.1]
    decide

/-- Witness for C3's amended claim on `antC3`, whose integer position
changes during the step. -/
theorem deposit_follows_int_cell_witness :
    (antC3.step mapM150 mapM150 (ManualRNG.init 1) 1).2.1 =
      mapM150.set_value (antC3.step mapM150 mapM150 (ManualRNG.init 1) 1).1.int_x
        (antC3.step mapM150 mapM150 (ManualRNG.init 1) 1).1.int_y
        (antC3.home_pher * antC3.use_rate) ∧
    (antC3.step mapM150 mapM150 (ManualRNG.init 1) 1).1.home_pher =
      antC3.home_pher * antC3.use_rate ∧
    (antC3.step mapM150 mapM150 (ManualRNG.init 1) 1).2.2.1 = mapM150 := by
  have hne : ¬ ((antC3.step mapM150 mapM150 (ManualRNG.init 1) 1).1.int_x = antC3.last_x ∧
      (antC3.step mapM150 mapM150 (ManualRNG.init 1) 1).1.int_y = antC3.last_y) := by
    intro h
    rw [antC3_step_proj.1] at h
    exact absurd h.1 (by decide)
  exact ((deposit_follows_int_cell antC3 mapM150 mapM150 (ManualRNG.init 1) 1).2 hne).2 rfl

/-! ## Claim C1 : determinism of a run -/

/-- C1: the whole engine state is a pure function of the seed and of
the command sequence — the single random source is threaded
explicitly, agents are processed in list order and the collision pass
iterates pairs in a fixed order — so two runs of the same seed and the
same `advanceTick`/`placeFood` sequence agree exactly (bit-identical
in this exact-arithmetic model) on all agent positions, both pheromone
fields and the `food_delivered` counter. -/
theorem run_determinism (seed : ℤ) (count : ℕ) (cmds : List SimCmd) (s1 s2 : SimState)
    (h1 : runSim seed count cmds = Except.ok s1) (h2 : runSim seed count cmds = Except.ok s2) :
    s1.colony.ants.map (fun a2 => (a2.x, a2.y)) =
      s2.colony.ants.map (fun a2 => (a2.x, a2.y)) ∧
    s1.homeM.map_vals = s2.homeM.map_vals ∧
    s1.foodM.map_vals = s2.foodM.map_vals ∧
    s1.colony.food_delivered = s2.colony.food_delivered := by
  rw [h1] at h2
  injection h2 with h
  subst h
  exact ⟨rfl, rfl, rfl, rfl⟩

/-- Witness for C1: two runs of seed 7 with two agents and no
commands. -/
theorem run_determinism_witness :
    (initSim 7 2).colony.ants.map (fun a2 => (a2.x, a2.y)) =
      (initSim 7 2).colony.ants.map (fun a2 => (a2.x, a2.y)) ∧
    (initSim 7 2).homeM.map_vals = (initSim 7 2).homeM.map_vals ∧
    (initSim 7 2).foodM.map_vals = (initSim 7 2).foodM.map_vals ∧
    (initSim 7 2).colony.food_delivered = (initSim 7 2).colony.food_delivered :=
  run_determinism 7 2 [] (initSim 7 2) (initSim 7 2) rfl rfl
